import Mathlib

/-!
Shallow embedding of the Option/Result combinator toolkit of the easy-fp
course (src/docs/chapter07/index.md and src/docs/appendix/libraries.md),
together with proofs settling the frozen claims about it.

TypeScript tagged unions become Lean inductives; the prose-level functions
are translated clause by clause.  Everything lives in the `EasyFP`
namespace so that the source names (`Option`, `map`, `sequence`, ...) can
be kept without clashing with the Lean prelude.
-/

namespace EasyFP

/-- `type Option<T> = None | Some<T>` (chapter07): two-variant tagged union. -/
inductive Option (T : Type) where
  | none : Option T
  | some (value : T) : Option T
deriving DecidableEq

/-- `isNone` type guard (chapter07). -/
def isNone {T : Type} : Option T → Bool
  | Option.none => true
  | Option.some _ => false

/-- `isSome` type guard (chapter07). -/
def isSome {T : Type} : Option T → Bool
  | Option.none => false
  | Option.some _ => true

/-- `map(option, fn)` on Option (chapter07): `if (isNone(option)) return none(); return some(fn(option.value))`. -/
def map {T U : Type} (option : Option T) (fn : T → U) : Option U :=
  match option with
  | Option.none => Option.none
  | Option.some value => Option.some (fn value)

/-- `flatMap(option, fn)` on Option (chapter07). -/
def flatMap {T U : Type} (option : Option T) (fn : T → Option U) : Option U :=
  match option with
  | Option.none => Option.none
  | Option.some value => fn value

/-- `getOrElse(option, defaultValue)` (chapter07). -/
def getOrElse {T : Type} (option : Option T) (defaultValue : T) : T :=
  match option with
  | Option.none => defaultValue
  | Option.some value => value

/-- `type Result<T, E> = Ok<T> | Err<E>` (chapter07). -/
inductive Result (T E : Type) where
  | ok (value : T) : Result T E
  | err (error : E) : Result T E
deriving DecidableEq

/-- `isOk` type guard (chapter07). -/
def isOk {T E : Type} : Result T E → Bool
  | Result.ok _ => true
  | Result.err _ => false

/-- `isErr` type guard (chapter07). -/
def isErr {T E : Type} : Result T E → Bool
  | Result.ok _ => false
  | Result.err _ => true

/-- `mapResult(result, fn)` (chapter07): `if (isErr(result)) return result; return ok(fn(result.value))`. -/
def mapResult {T U E : Type} (result : Result T E) (fn : T → U) : Result U E :=
  match result with
  | Result.err error => Result.err error
  | Result.ok value => Result.ok (fn value)

/-- `flatMapResult(result, fn)` (chapter07). -/
def flatMapResult {T U E : Type} (result : Result T E) (fn : T → Result U E) : Result U E :=
  match result with
  | Result.err error => Result.err error
  | Result.ok value => fn value

/-- `mapError(result, fn)` (chapter07): `if (isOk(result)) return result; return err(fn(result.error))`. -/
def mapError {T E F : Type} (result : Result T E) (fn : E → F) : Result T F :=
  match result with
  | Result.ok value => Result.ok value
  | Result.err error => Result.err (fn error)

/-- `combineResults(results)` (chapter07): one pass pushing each `Ok` payload
onto `values` and each `Err` payload onto `errors`, then
`if (errors.length > 0) return err(errors); return ok(values)`. -/
def combineResults {T E : Type} (results : List (Result T E)) : Result (List T) (List E) :=
  let step := fun (acc : List T × List E) (result : Result T E) =>
    match result with
    | Result.ok value => (acc.1 ++ [value], acc.2)
    | Result.err error => (acc.1, acc.2 ++ [error])
  let final := results.foldl step ([], [])
  if final.2.length > 0 then Result.err final.2 else Result.ok final.1

/-- `sequence(results)` (chapter07): `results.reduce((acc, result) =>
flatMapResult(acc, values => mapResult(result, value => [...values, value])), ok([]))`. -/
def sequence {T E : Type} (results : List (Result T E)) : Result (List T) E :=
  results.foldl
    (fun acc result => flatMapResult acc fun values => mapResult result fun value => values ++ [value])
    (Result.ok [])

/-- Statement vocabulary: the success payloads of the `Ok` elements, in input order. -/
def okPayloads {T E : Type} : List (Result T E) → List T
  | [] => []
  | Result.ok value :: rest => value :: okPayloads rest
  | Result.err _ :: rest => okPayloads rest

/-- Statement vocabulary: the error payloads of the `Err` elements, in input order. -/
def errorPayloads {T E : Type} : List (Result T E) → List E
  | [] => []
  | Result.ok _ :: rest => errorPayloads rest
  | Result.err error :: rest => error :: errorPayloads rest

section CombineLemmas

variable {T E : Type}

lemma combine_foldl_char (l : List (Result T E)) (vs : List T) (es : List E) :
    l.foldl
      (fun (acc : List T × List E) (result : Result T E) =>
        match result with
        | Result.ok value => (acc.1 ++ [value], acc.2)
        | Result.err error => (acc.1, acc.2 ++ [error]))
      (vs, es) = (vs ++ okPayloads l, es ++ errorPayloads l) := by
  induction l generalizing vs es with
  | nil => simp [okPayloads, errorPayloads]
  | cons head rest ih =>
    cases head with
    | ok value => simp [okPayloads, errorPayloads, ih]
    | err error => simp [okPayloads, errorPayloads, ih]

lemma combineResults_char (rs : List (Result T E)) :
    combineResults rs =
      if 0 < (errorPayloads rs).length then Result.err (errorPayloads rs)
      else Result.ok (okPayloads rs) := by
  simp only [combineResults]
  rw [combine_foldl_char]
  simp

lemma errorPayloads_nil_iff (rs : List (Result T E)) :
    errorPayloads rs = [] ↔ ∀ r ∈ rs, isErr r = false := by
  induction rs with
  | nil => simp [errorPayloads]
  | cons head rest ih =>
    cases head with
    | ok value => simp [errorPayloads, isErr, ih]
    | err error => simp [errorPayloads, isErr]

end CombineLemmas

section SequenceLemmas

variable {T E : Type}

lemma sequence_foldl_err (l : List (Result T E)) (e : E) :
    l.foldl
      (fun acc result => flatMapResult acc fun values => mapResult result fun value => values ++ [value])
      (Result.err e) = Result.err e := by
  induction l with
  | nil => rfl
  | cons head rest ih => simpa [flatMapResult] using ih

lemma sequence_foldl_ok (l : List (Result T E)) (vs : List T)
    (h : errorPayloads l = []) :
    l.foldl
      (fun acc result => flatMapResult acc fun values => mapResult result fun value => values ++ [value])
      (Result.ok vs) = Result.ok (vs ++ okPayloads l) := by
  induction l generalizing vs with
  | nil => simp [okPayloads]
  | cons head rest ih =>
    cases head with
    | ok value =>
      simp only [errorPayloads] at h
      rw [List.foldl_cons]
      change List.foldl _ (Result.ok (vs ++ [value])) rest = _
      rw [ih _ h, okPayloads]
      simp
    | err error => simp [errorPayloads] at h

lemma sequence_all_ok (rs : List (Result T E)) (h : errorPayloads rs = []) :
    sequence rs = Result.ok (okPayloads rs) := by
  unfold sequence
  simpa using sequence_foldl_ok rs [] h

lemma sequence_first_err (pre : List (Result T E)) (e : E) (post : List (Result T E))
    (h : errorPayloads pre = []) :
    sequence (pre ++ Result.err e :: post) = Result.err e := by
  unfold sequence
  rw [List.foldl_append, sequence_foldl_ok pre [] h]
  simp only [List.foldl_cons, flatMapResult, mapResult]
  exact sequence_foldl_err post e

end SequenceLemmas

/-- `type ValidationError = { field: string; message: string }` (chapter07). -/
structure ValidationError where
  field : String
  message : String
deriving DecidableEq

/-- `validateEmail` (chapter07): `if (!email.includes("@")) return err(...); return ok(email)`.
Containment of the one-character string `"@"` is containment of the
character `@`, modelled over the character list. -/
def validateEmail (email : String) : Result String ValidationError :=
  if !(email.toList.any fun c => c == '@') then
    Result.err ⟨"email", "Invalid email format"⟩
  else Result.ok email

/-- `validateAge` (chapter07): out-of-range check on a number. -/
def validateAge (age : Int) : Result Int ValidationError :=
  if age < 0 ∨ age > 150 then
    Result.err ⟨"age", "Age must be between 0 and 150"⟩
  else Result.ok age

/-- Model of the JavaScript regex test `/^[a-zA-Z0-9_]+$/.test(s)`: the whole
string is one or more ASCII letters, digits or underscores. -/
def usernamePatternTest (s : String) : Bool :=
  s.length > 0 && s.toList.all fun c => c.isAlphanum || c == '_'

/-- `validateUsername` (chapter07 exercise 2 solution). -/
def validateUsername (username : String) : Result String ValidationError :=
  if username.length < 3 then
    Result.err ⟨"username", "Username must be at least 3 characters"⟩
  else if !usernamePatternTest username then
    Result.err ⟨"username", "Username can only contain letters, numbers, and underscores"⟩
  else Result.ok username

/-- `validatePassword` (chapter07 exercise 2 solution): the length check runs
first and, like every validator here, only the first failing check is
reported. -/
def validatePassword (password confirmPassword : String) : Result String ValidationError :=
  if password.length < 8 then
    Result.err ⟨"password", "Password must be at least 8 characters"⟩
  else if password ≠ confirmPassword then
    Result.err ⟨"confirmPassword", "Passwords do not match"⟩
  else Result.ok password

/-- Model of the JavaScript builtin `parseInt(s, 10)`: skip leading
whitespace, read an optional sign and then the longest digit prefix;
`Option.none` models the `NaN` outcome when no digit is found. -/
def parseIntJS (s : String) : Option Int :=
  let parseDigits := fun (negative : Bool) (rest : List Char) =>
    let ds := rest.takeWhile Char.isDigit
    if ds.length = 0 then Option.none
    else
      let n : Nat := ds.foldl (fun acc c => acc * 10 + (c.toNat - 48)) 0
      Option.some (if negative then -(n : Int) else (n : Int))
  let cs := s.toList.dropWhile fun c => c = ' ' || c = '\t' || c = '\n'
  match cs with
  | '-' :: rest => parseDigits true rest
  | '+' :: rest => parseDigits false rest
  | _ => parseDigits false cs

/-- `validateAgeString` (chapter07 exercise 2 solution): `parseInt`, reject
`NaN`, then delegate to `validateAge`. -/
def validateAgeString (ageStr : String) : Result Int ValidationError :=
  match parseIntJS ageStr with
  | Option.none => Result.err ⟨"age", "Age must be a number"⟩
  | Option.some age => validateAge age

/-- `type FormData` (chapter07 exercise 2). -/
structure FormData where
  username : String
  password : String
  confirmPassword : String
  email : String
  age : String
deriving DecidableEq

/-- `type ValidatedForm` (chapter07 exercise 2). -/
structure ValidatedForm where
  username : String
  password : String
  email : String
  age : Int
deriving DecidableEq

/-- The TypeScript union `string | number` into which the heterogeneous
validator successes are implicitly coerced inside `validateForm`'s
`validations` array; the coercion is made explicit below with `mapResult`. -/
inductive FieldValue where
  | str (s : String) : FieldValue
  | num (n : Int) : FieldValue
deriving DecidableEq

/-- `validateForm` (chapter07 exercise 2 solution): run the four validators,
aggregate with `combineResults`, return the aggregated `Err` as is, and on
success destructure the four values into `ValidatedForm`.  The source
destructures with unchecked `as` casts, so the final catch-all branch is
unreachable on the source's own inputs. -/
def validateForm (data : FormData) : Result ValidatedForm (List ValidationError) :=
  let validations : List (Result FieldValue ValidationError) :=
    [mapResult (validateUsername data.username) FieldValue.str,
     mapResult (validatePassword data.password data.confirmPassword) FieldValue.str,
     mapResult (validateEmail data.email) FieldValue.str,
     mapResult (validateAgeString data.age) FieldValue.num]
  match combineResults validations with
  | Result.err errors => Result.err errors
  | Result.ok values =>
    match values with
    | [FieldValue.str username, FieldValue.str password, FieldValue.str email, FieldValue.num age] =>
      Result.ok ⟨username, password, email, age⟩
    | _ => Result.err []

/-- `type Task<T> = () => Promise<T>` (appendix): a deferred computation.
For the resolution-only combinators below a task is modelled as a thunk of
its resolved value. -/
abbrev Task (T : Type) : Type := Unit → T

/-- `taskOf(value)` (appendix): a task resolving immediately to `value`. -/
def taskOf {T : Type} (value : T) : Task T := fun _ => value

/-- `mapTask(task, fn)` (appendix): `() => task().then(fn)`. -/
def mapTask {T U : Type} (task : Task T) (fn : T → U) : Task U :=
  fun u => fn (task u)

/-- `type AsyncResult<T, E> = Task<Result<T, E>>` (appendix). -/
abbrev AsyncResult (T E : Type) : Type := Task (Result T E)

/-- `asyncOk(value)` (appendix). -/
def asyncOk {T E : Type} (value : T) : AsyncResult T E := taskOf (Result.ok value)

/-- `asyncErr(error)` (appendix). -/
def asyncErr {T E : Type} (error : E) : AsyncResult T E := taskOf (Result.err error)

/-- `mapAsync(asyncResult, fn)` (appendix). -/
def mapAsync {T U E : Type} (asyncResult : AsyncResult T E) (fn : T → U) : AsyncResult U E :=
  mapTask asyncResult fun result => mapResult result fn

/-- `flatMapAsync(asyncResult, fn)` (appendix): await the inner task, return
an `Err` resolution as is, otherwise run `fn` on the payload and return that
task's resolution directly. -/
def flatMapAsync {T U E : Type} (asyncResult : AsyncResult T E) (fn : T → AsyncResult U E) :
    AsyncResult U E :=
  fun u =>
    match asyncResult u with
    | Result.err error => Result.err error
    | Result.ok value => fn value u

/-- Outcome of one invocation of a retried task (appendix `retryTask`): the
promise either resolves with a value or rejects with a thrown fault.  A task
under retry is modelled as a function from the invocation number (counted
from 1) to that invocation's outcome, so a task may behave differently on
each invocation, like the fault-twice-then-succeed spy of the spec. -/
inductive Invocation (T E : Type) where
  | resolve (value : T) : Invocation T E
  | fault (error : E) : Invocation T E
deriving DecidableEq

/-- Final outcome of `retryTask`: a resolved value, or a rejection carrying
the last caught fault.  `rejected Option.none` models the source's
`throw lastError!` firing while `lastError` was never assigned, i.e. a
rejection with the JavaScript `undefined` value. -/
inductive RetryOutcome (T E : Type) where
  | resolved (value : T) : RetryOutcome T E
  | rejected (fault : Option E) : RetryOutcome T E
deriving DecidableEq

/-- Observable behaviour of one run of the task built by `retryTask`: how
many times the underlying task was invoked, the `setTimeout` waits performed
in order, and the final outcome. -/
structure RetryResult (T E : Type) where
  invocations : Nat
  delays : List Nat
  outcome : RetryOutcome T E
deriving DecidableEq

/-- The `for (let attempt = 1; attempt <= maxAttempts; attempt++)` loop body
of `retryTask` (appendix): try the task and return its resolution; on a
fault record it as `lastError` and, when `attempt < maxAttempts`, wait
`delay * attempt`; when attempts are exhausted, `throw lastError!`.  The
fuel argument counts the remaining loop iterations. -/
def retryLoop {T E : Type} (task : Nat → Invocation T E) (maxAttempts : Int) (delay : Nat) :
    Nat → Nat → Option E → Nat → List Nat → RetryResult T E
  | 0, _, lastError, invocations, delays =>
    ⟨invocations, delays, RetryOutcome.rejected lastError⟩
  | fuel + 1, attempt, _, invocations, delays =>
    match task attempt with
    | Invocation.resolve value => ⟨invocations + 1, delays, RetryOutcome.resolved value⟩
    | Invocation.fault error =>
      retryLoop task maxAttempts delay fuel (attempt + 1) (Option.some error) (invocations + 1)
        (if (attempt : Int) < maxAttempts then delays ++ [delay * attempt] else delays)

/-- `retryTask(task, maxAttempts, delay)` (appendix), instrumented: run the
attempt loop starting at attempt 1 with no `lastError` recorded.  The loop
runs `max(maxAttempts, 0)` times, matching `attempt <= maxAttempts` for an
`attempt` counted from 1. -/
def retryTask {T E : Type} (task : Nat → Invocation T E) (maxAttempts : Int) (delay : Nat) :
    RetryResult T E :=
  retryLoop task maxAttempts delay maxAttempts.toNat 1 Option.none 0 []

section RetryLemmas

variable {T E : Type}

lemma delays_shift (d attempt j : Nat) :
    (List.range (j + 1)).map (fun t => d * (attempt + t)) =
      d * attempt :: (List.range j).map (fun t => d * (attempt + 1 + t)) := by
  rw [List.range_succ_eq_map, List.map_cons, List.map_map, Nat.add_zero]
  refine congrArg (fun l => d * attempt :: l) ?_
  refine congrArg (fun f => List.map f (List.range j)) ?_
  funext t
  simp only [Function.comp_apply, Nat.succ_eq_add_one]
  ring

lemma retryLoop_faults_then_resolve (task : Nat → Invocation T E) (m : Int) (d : Nat) (v : T) :
    ∀ (j fuel attempt : Nat) (le : Option E) (invs : Nat) (ds : List Nat),
      j < fuel →
      ((attempt : Int) + (j : Int) ≤ m) →
      (∀ i, attempt ≤ i → i < attempt + j → ∃ e, task i = Invocation.fault e) →
      task (attempt + j) = Invocation.resolve v →
      retryLoop task m d fuel attempt le invs ds =
        ⟨invs + j + 1, ds ++ (List.range j).map (fun t => d * (attempt + t)),
          RetryOutcome.resolved v⟩ := by
  intro j
  induction j with
  | zero =>
    intro fuel attempt le invs ds hfuel hm hfaults hres
    obtain ⟨f, rfl⟩ : ∃ f, fuel = f + 1 := ⟨fuel - 1, by omega⟩
    simp only [Nat.add_zero] at hres
    simp [retryLoop, hres]
  | succ j ih =>
    intro fuel attempt le invs ds hfuel hm hfaults hres
    obtain ⟨f, rfl⟩ : ∃ f, fuel = f + 1 := ⟨fuel - 1, by omega⟩
    obtain ⟨e, he⟩ := hfaults attempt (Nat.le_refl _) (by omega)
    have hlt : (attempt : Int) < m := by push_cast at hm ⊢; omega
    rw [show retryLoop task m d (f + 1) attempt le invs ds =
          retryLoop task m d f (attempt + 1) (Option.some e) (invs + 1)
            (if (attempt : Int) < m then ds ++ [d * attempt] else ds) from by
        simp [retryLoop, he]]
    rw [if_pos hlt]
    rw [ih f (attempt + 1) (Option.some e) (invs + 1) (ds ++ [d * attempt]) (by omega)
      (by push_cast at hm ⊢; omega)
      (fun i h1 h2 => hfaults i (by omega) (by omega))
      (by rw [show attempt + 1 + j = attempt + (j + 1) from by omega]; exact hres)]
    rw [delays_shift]
    simp only [RetryResult.mk.injEq]
    refine ⟨by omega, by simp, trivial⟩

lemma retryLoop_all_faults (task : Nat → Invocation T E) (m : Int) (d : Nat)
    (es : Nat → E) (hf : ∀ i, task i = Invocation.fault (es i)) :
    ∀ (fuel attempt : Nat) (le : Option E) (invs : Nat) (ds : List Nat),
      0 < fuel →
      ((attempt : Int) + (fuel : Int) = m + 1) →
      retryLoop task m d fuel attempt le invs ds =
        ⟨invs + fuel, ds ++ (List.range (fuel - 1)).map (fun t => d * (attempt + t)),
          RetryOutcome.rejected (Option.some (es (attempt + fuel - 1)))⟩ := by
  intro fuel
  induction fuel with
  | zero => intro attempt le invs ds hfuel hm; omega
  | succ f ih =>
    intro attempt le invs ds hfuel hm
    rcases Nat.eq_zero_or_pos f with hf0 | hfpos
    · subst hf0
      have hnot : ¬ ((attempt : Int) < m) := by push_cast at hm ⊢; omega
      simp [retryLoop, hf attempt, hnot]
    · have hlt : (attempt : Int) < m := by push_cast at hm ⊢; omega
      rw [show retryLoop task m d (f + 1) attempt le invs ds =
            retryLoop task m d f (attempt + 1) (Option.some (es attempt)) (invs + 1)
              (if (attempt : Int) < m then ds ++ [d * attempt] else ds) from by
          simp [retryLoop, hf attempt]]
      rw [if_pos hlt]
      rw [ih (attempt + 1) (Option.some (es attempt)) (invs + 1) (ds ++ [d * attempt]) hfpos
        (by push_cast at hm ⊢; omega)]
      rw [show attempt + 1 + f - 1 = attempt + (f + 1) - 1 from by omega]
      obtain ⟨g, rfl⟩ : ∃ g, f = g + 1 := ⟨f - 1, by omega⟩
      simp only [Nat.add_sub_cancel]
      rw [delays_shift]
      simp only [RetryResult.mk.injEq]
      refine ⟨by omega, by simp, trivial⟩

end RetryLemmas

lemma errorPayloads_append {T E : Type} (l1 l2 : List (Result T E)) :
    errorPayloads (l1 ++ l2) = errorPayloads l1 ++ errorPayloads l2 := by
  induction l1 with
  | nil => simp [errorPayloads]
  | cons head rest ih => cases head <;> simp [errorPayloads, ih]

/-- Claim C1: `combineResults` evaluates every element, and returns
`Err` of all error payloads in input order when at least one element is an
`Err` (the length-0 test on the collected errors is exactly "no element is
an `Err`"), otherwise `Ok` of all success payloads in input order; in
particular on `[ok 1, err "a", ok 2, err "b"]` it returns `err ["a", "b"]`
and on `[ok 1, ok 2, ok 3]` it returns `ok [1, 2, 3]`. -/
theorem combineResults_collects_all_errors :
    (∀ (T E : Type) (rs : List (Result T E)),
      combineResults rs =
        if 0 < (errorPayloads rs).length then Result.err (errorPayloads rs)
        else Result.ok (okPayloads rs)) ∧
    (∀ (T E : Type) (rs : List (Result T E)),
      (errorPayloads rs).length = 0 ↔ ∀ r ∈ rs, isErr r = false) ∧
    combineResults [Result.ok 1, Result.err "a", Result.ok 2, Result.err "b"] =
      Result.err ["a", "b"] ∧
    combineResults ([Result.ok 1, Result.ok 2, Result.ok 3] : List (Result Nat String)) =
      Result.ok [1, 2, 3] := by
  refine ⟨fun _ _ rs => combineResults_char rs,
    fun _ _ rs => by rw [List.length_eq_zero]; exact errorPayloads_nil_iff rs, ?_, ?_⟩ <;> decide

/-- Claim C3: on all-`Ok` input `sequence` and `combineResults` both return
`Ok` of the same ordered value list; on input containing an `Err`,
`sequence` returns the first error payload alone while `combineResults`
returns the list of all error payloads, so the two policies differ (they do
not even share an error type: `E` against `E[]`). -/
theorem sequence_and_combineResults_distinct :
    (∀ (T E : Type) (rs : List (Result T E)),
      (∀ r ∈ rs, isErr r = false) →
      sequence rs = Result.ok (okPayloads rs) ∧ combineResults rs = Result.ok (okPayloads rs)) ∧
    (∀ (T E : Type) (pre : List (Result T E)) (e : E) (post : List (Result T E)),
      (∀ r ∈ pre, isErr r = false) →
      sequence (pre ++ Result.err e :: post) = Result.err e ∧
      combineResults (pre ++ Result.err e :: post) = Result.err (e :: errorPayloads post)) ∧
    sequence [Result.ok 1, Result.err "a", Result.ok 2, Result.err "b"] = Result.err "a" ∧
    combineResults [Result.ok 1, Result.err "a", Result.ok 2, Result.err "b"] =
      Result.err ["a", "b"] := by
  refine ⟨?_, ?_, by decide, by decide⟩
  · intro T E rs h
    have h0 : errorPayloads rs = [] := (errorPayloads_nil_iff rs).mpr h
    refine ⟨sequence_all_ok rs h0, ?_⟩
    rw [combineResults_char, h0]
    simp
  · intro T E pre e post h
    have h0 : errorPayloads pre = [] := (errorPayloads_nil_iff pre).mpr h
    refine ⟨sequence_first_err pre e post h0, ?_⟩
    rw [combineResults_char, errorPayloads_append, h0]
    simp [errorPayloads]

/-- Witness for claim C3 at the concrete input `[ok 5, err "x"]`. -/
theorem sequence_and_combineResults_distinct_witness :
    sequence [Result.ok 5, Result.err "x"] = Result.err "x" ∧
    combineResults [Result.ok 5, Result.err "x"] = Result.err ["x"] := by
  have h := sequence_and_combineResults_distinct.2.1 Nat String [Result.ok 5] "x" []
    (by decide)
  simpa [errorPayloads] using h

/-- Claim C4: `mapResult` on an `Err` returns that `Err` unchanged for every
transform (the result is the same for all `f`, so `f` is never consulted),
and on `Ok(v)` returns `Ok(f(v))`.  Reference identity of the returned
`Err` is not observable in a value semantics; structural equality is what is
stated. -/
theorem mapResult_err_identity :
    (∀ (T U E : Type) (e : E) (f : T → U),
      mapResult (Result.err e : Result T E) f = Result.err e) ∧
    (∀ (T U E : Type) (v : T) (f : T → U),
      mapResult (Result.ok v : Result T E) f = Result.ok (f v)) :=
  ⟨fun _ _ _ _ _ => rfl, fun _ _ _ _ _ => rfl⟩

/-- Claim C7: the Option combinator laws — `map` on `none` is `none` for
every `f`, `map` on `some x` is `some (f x)`, `flatMap` is associative, and
`flatMap` with `some` is the identity. -/
theorem option_laws :
    (∀ (T U : Type) (f : T → U), map (Option.none : Option T) f = Option.none) ∧
    (∀ (T U : Type) (x : T) (f : T → U), map (Option.some x) f = Option.some (f x)) ∧
    (∀ (T U V : Type) (o : Option T) (f : T → Option U) (g : U → Option V),
      flatMap (flatMap o f) g = flatMap o fun x => flatMap (f x) g) ∧
    (∀ (T : Type) (o : Option T), flatMap o Option.some = o) := by
  refine ⟨fun _ _ _ => rfl, fun _ _ _ _ => rfl, ?_, ?_⟩
  · intro T U V o f g
    cases o <;> rfl
  · intro T o
    cases o <;> rfl

/-- Claim C8: every `Result` is classified by exactly one of `isOk` and
`isErr` — one of them is `true` and the other `false`, so the two total
predicates are mutually exclusive and jointly exhaustive. -/
theorem isOk_isErr_exclusive :
    ∀ (T E : Type) (r : Result T E),
      (isOk r = true ∧ isErr r = false) ∨ (isOk r = false ∧ isErr r = true) := by
  intro T E r
  cases r with
  | ok value => exact Or.inl ⟨rfl, rfl⟩
  | err error => exact Or.inr ⟨rfl, rfl⟩

/-- Claim C9: both aggregators succeed vacuously on the empty list, and
`combineResults` never returns an `Err` carrying an empty error list — its
result is either an `Ok` of the success payloads or an `Err` whose payload
list has an explicit head. -/
theorem empty_input_aggregators :
    (∀ (T E : Type), combineResults ([] : List (Result T E)) = Result.ok []) ∧
    (∀ (T E : Type), sequence ([] : List (Result T E)) = Result.ok []) ∧
    (∀ (T E : Type) (rs : List (Result T E)),
      combineResults rs = Result.ok (okPayloads rs) ∨
      ∃ e es, combineResults rs = Result.err (e :: es)) := by
  refine ⟨fun _ _ => rfl, fun _ _ => rfl, ?_⟩
  intro T E rs
  rcases h : errorPayloads rs with _ | ⟨e, es⟩
  · left
    rw [combineResults_char, h]
    simp
  · right
    exact ⟨e, es, by rw [combineResults_char, h]; simp⟩

/-- Claim C2 fails on the code: on the record
`{username: "ab", password: "short", confirmPassword: "mismatch",
email: "bad", age: "x"}` the returned error list has four entries, not
five — `validatePassword` reports only its first failing check, so the
password-too-short error masks the passwords-mismatch error. -/
theorem validateForm_not_five_errors :
    ¬ ∃ es : List ValidationError,
        validateForm ⟨"ab", "short", "mismatch", "bad", "x"⟩ = Result.err es ∧
        es.length = 5 := by
  rintro ⟨es, heq, hlen⟩
  have hval : validateForm ⟨"ab", "short", "mismatch", "bad", "x"⟩ =
      Result.err [⟨"username", "Username must be at least 3 characters"⟩,
        ⟨"password", "Password must be at least 8 characters"⟩,
        ⟨"email", "Invalid email format"⟩,
        ⟨"age", "Age must be a number"⟩] := by decide
  rw [hval] at heq
  injection heq with h
  subst h
  exact absurd hlen (by decide)

/-- Claim C2 as amended: validating that record yields an `Err` with exactly
four `ValidationError`s, for the fields `username`, `password`, `email` and
`age` in that order; no `confirmPassword` error appears because
`validatePassword` short-circuits on the failed length check. -/
theorem validateForm_four_errors :
    validateForm ⟨"ab", "short", "mismatch", "bad", "x"⟩ =
      Result.err [⟨"username", "Username must be at least 3 characters"⟩,
        ⟨"password", "Password must be at least 8 characters"⟩,
        ⟨"email", "Invalid email format"⟩,
        ⟨"age", "Age must be a number"⟩] := by
  decide

/-- Claim C6: `flatMapAsync` on `asyncErr e` resolves to `err e` whatever
the continuation is (so the continuation is never consulted), and whenever
the inner task resolves to `ok v` it resolves to exactly the resolution of
`fn v` — a flat `Result`, not a nested one. -/
theorem flatMapAsync_short_circuits :
    (∀ (T U E : Type) (e : E) (f : T → AsyncResult U E),
      flatMapAsync (asyncErr e) f () = Result.err e) ∧
    (∀ (T U E : Type) (ar : AsyncResult T E) (f : T → AsyncResult U E) (v : T),
      ar () = Result.ok v → flatMapAsync ar f () = f v ()) := by
  refine ⟨fun _ _ _ _ _ => rfl, ?_⟩
  intro T U E ar f v h
  simp [flatMapAsync, h]

/-- Witness for claim C6 at the concrete task `asyncOk 3`. -/
theorem flatMapAsync_short_circuits_witness :
    flatMapAsync (asyncOk 3) (fun v => asyncOk (v + 1) : Nat → AsyncResult Nat String) () =
      Result.ok 4 := by
  have h := flatMapAsync_short_circuits.2 Nat Nat String (asyncOk 3)
    (fun v => asyncOk (v + 1)) 3 rfl
  simpa [asyncOk, taskOf] using h

/-- Claim C5: `retryTask` re-invokes the task only on faults.  If the first
`k - 1` invocations fault and invocation `k ≤ maxAttempts` resolves, the
task is invoked exactly `k` times, the run resolves to the resolved value
(whatever it is, an `Err`-valued resolution included), and the waits
performed are `delay * 1, ..., delay * (k - 1)` — linear backoff after each
fault.  If every invocation faults, the task is invoked exactly
`maxAttempts` times and the run rejects with the last fault. -/
theorem retryTask_retries_only_on_fault :
    (∀ (T E : Type) (task : Nat → Invocation T E) (m : Int) (d k : Nat) (v : T),
      1 ≤ k → (k : Int) ≤ m →
      (∀ i, 1 ≤ i → i < k → ∃ e, task i = Invocation.fault e) →
      task k = Invocation.resolve v →
      retryTask task m d =
        ⟨k, (List.range (k - 1)).map (fun t => d * (1 + t)), RetryOutcome.resolved v⟩) ∧
    (∀ (T E : Type) (task : Nat → Invocation T E) (m : Int) (d : Nat) (es : Nat → E),
      1 ≤ m → (∀ i, task i = Invocation.fault (es i)) →
      retryTask task m d =
        ⟨m.toNat, (List.range (m.toNat - 1)).map (fun t => d * (1 + t)),
          RetryOutcome.rejected (Option.some (es m.toNat))⟩) := by
  constructor
  · intro T E task m d k v hk hkm hfaults hres
    have h := retryLoop_faults_then_resolve task m d v (k - 1) m.toNat 1 Option.none 0 []
      (by omega) (by omega)
      (fun i h1 h2 => hfaults i h1 (by omega))
      (by rw [show 1 + (k - 1) = k from by omega]; exact hres)
    have hgoal : retryTask task m d =
        ⟨0 + (k - 1) + 1, [] ++ (List.range (k - 1)).map (fun t => d * (1 + t)),
          RetryOutcome.resolved v⟩ := h
    rw [hgoal]
    simp only [RetryResult.mk.injEq]
    exact ⟨by omega, by simp, by trivial⟩
  · intro T E task m d es hm hf
    have h := retryLoop_all_faults task m d es hf m.toNat 1 Option.none 0 []
      (by omega) (by omega)
    have hgoal : retryTask task m d =
        ⟨0 + m.toNat, [] ++ (List.range (m.toNat - 1)).map (fun t => d * (1 + t)),
          RetryOutcome.rejected (Option.some (es (1 + m.toNat - 1)))⟩ := h
    rw [hgoal]
    simp only [RetryResult.mk.injEq]
    exact ⟨by omega, by simp, by rw [show 1 + m.toNat - 1 = m.toNat from by omega]⟩

/-- Witness for claim C5: a task that faults twice then resolves, with
`maxAttempts = 3` and `delay = 10`, is invoked exactly 3 times, waits 10
then 20 after the two faults, and resolves to the success value. -/
theorem retryTask_retries_only_on_fault_witness :
    retryTask (fun i => if i ≤ 2 then Invocation.fault "boom" else Invocation.resolve (42 : Nat))
      3 10 = ⟨3, [10, 20], RetryOutcome.resolved 42⟩ := by
  have h := retryTask_retries_only_on_fault.1 Nat String
    (fun i => if i ≤ 2 then Invocation.fault "boom" else Invocation.resolve 42) 3 10 3 42
    (by omega) (by decide)
    (fun i h1 h2 => ⟨"boom", by
      have hi : i = 1 ∨ i = 2 := by omega
      rcases hi with rfl | rfl <;> rfl⟩)
    (by rfl)
  simpa using h

/-- Claim C10: with `maxAttempts < 1` the attempt loop never runs, so the
underlying task is never invoked, no wait happens, and the run rejects with
the never-assigned `lastError`, i.e. the JavaScript `undefined` value
(modelled as `Option.none`). -/
theorem retryTask_zero_attempts :
    ∀ (T E : Type) (task : Nat → Invocation T E) (m : Int) (d : Nat),
      m < 1 →
      retryTask task m d = ⟨0, [], RetryOutcome.rejected Option.none⟩ := by
  intro T E task m d hm
  have h0 : m.toNat = 0 := by omega
  unfold retryTask
  rw [h0]
  rfl

/-- Witness for claim C10 at `maxAttempts = -1`. -/
theorem retryTask_zero_attempts_witness :
    retryTask (fun _ => Invocation.resolve (0 : Nat) : Nat → Invocation Nat String) (-1) 7 =
      ⟨0, [], RetryOutcome.rejected Option.none⟩ :=
  retryTask_zero_attempts Nat String _ (-1) 7 (by decide)

end EasyFP
